import Mathlib

/-!
Verification development for the tsc-wrapped compiler-host layer and the
offline code generator of this repository.

Strings of the TypeScript source are modelled as `List Char`.  The Node.js
`path` functions used by the code (`path.join`, `path.dirname`,
`path.relative` — posix flavour) are embedded below; `process.cwd()`, which
`path.relative` consults implicitly, is made an explicit `cwd` argument.
External collaborators (the metadata collector, tsickle's decorator
converter, the template compiler) are abstracted as function parameters: the
claims under study only depend on how their results are routed, not on their
internals.
-/

abbrev Str := List Char

/-- `hasPre pat s` : `pat` is a leading segment of `s` (string startsWith). -/
def hasPre : Str → Str → Bool
  | [], _ => true
  | _ :: _, [] => false
  | a :: as, b :: bs => if a = b then hasPre as bs else false

/-- `hasSuf pat s` : `pat` is a trailing segment of `s` (string endsWith / `$`-anchored regex test). -/
def hasSuf (pat s : Str) : Bool := hasPre pat.reverse s.reverse

/-- `s.replace(/pat$/, '')` for a literal `pat`: drop the trailing segment when present. -/
def dropSuf (pat s : Str) : Str := if hasSuf pat s then s.take (s.length - pat.length) else s

/-- `pat` occurs somewhere inside `s` (string includes / unanchored regex test). -/
def hasSub (pat : Str) : Str → Bool
  | [] => hasPre pat []
  | c :: cs => hasPre pat (c :: cs) || hasSub pat cs

/-- JavaScript `s.replace(pat, repl)` with a plain-string `pat`: replace the
first occurrence of `pat` (none of the replacement texts built by the code
under study contain `$`-escapes, so plain splicing is faithful). -/
def replaceFirstStr : Str → Str → Str → Str
  | [], pat, repl => if pat = [] then repl else []
  | c :: cs, pat, repl =>
    if hasPre pat (c :: cs) then repl ++ (c :: cs).drop pat.length
    else c :: replaceFirstStr cs pat repl

/-! ## Node.js posix path model -/

/-- Split on `/` (empty segments kept; they are skipped during normalization,
matching Node's treatment of repeated separators). -/
def splitSepAux : Str → Str → List Str
  | [], acc => [acc.reverse]
  | c :: cs, acc => if c = '/' then acc.reverse :: splitSepAux cs [] else splitSepAux cs (c :: acc)

def splitSep (s : Str) : List Str := splitSepAux s []

/-- One step of Node's `normalizeString`: skip empty and `.` segments, have
`..` pop the previous real segment (kept, for a relative path, when there is
nothing left to pop). -/
def normStep (allowAbove : Bool) (acc : List Str) (seg : Str) : List Str :=
  if seg = [] ∨ seg = ['.'] then acc
  else if seg = ['.', '.'] then
    match acc.getLast? with
    | some l => if l = ['.', '.'] then acc ++ [seg] else acc.dropLast
    | none => if allowAbove then [seg] else []
  else acc ++ [seg]

def normalizeParts (allowAbove : Bool) (s : Str) : List Str :=
  (splitSep s).foldl (normStep allowAbove) []

def joinParts : List Str → Str
  | [] => []
  | [p] => p
  | p :: ps => p ++ '/' :: joinParts ps

/-- Final assembly of Node's `posix.normalize` from the normalized core. -/
def pathNormCore (isAbs trailing : Bool) (n0 : Str) : Str :=
  let n1 := if n0.isEmpty then (if isAbs then n0 else ['.']) else n0
  let n2 := if trailing && !n1.isEmpty then n1 ++ ['/'] else n1
  if isAbs then '/' :: n2 else n2

/-- Node `path.posix.normalize`. -/
def pathNormalize (p : Str) : Str :=
  if p = [] then ['.']
  else pathNormCore (hasPre ['/'] p) (hasSuf ['/'] p)
    (joinParts (normalizeParts (!(hasPre ['/'] p)) p))

/-- Node `path.posix.join` for two arguments: drop empty parts, concatenate
with `/`, normalize; `.` when everything was empty. -/
def pathJoin (a b : Str) : Str :=
  match ([a, b].filter fun s => !s.isEmpty) with
  | [] => ['.']
  | ps => pathNormalize (joinParts ps)

/-- Node `path.posix.dirname`. -/
def pathDirname (p : Str) : Str :=
  if p = [] then ['.']
  else
    let hasRoot := hasPre ['/'] p
    let rev2 := ((p.reverse.dropWhile fun c => c = '/').dropWhile fun c => c ≠ '/')
    match rev2 with
    | [] => if hasRoot then ['/'] else ['.']
    | _ :: rest =>
      if rest = [] then (if hasRoot then ['/'] else ['.'])
      else if hasRoot ∧ rest.length = 1 then ['/', '/']
      else rest.reverse

/-- Node `path.posix.resolve cwd p` for an absolute `cwd`: make `p` absolute
against `cwd` and collapse `.` and `..` segments. -/
def pathResolve (cwd p : Str) : Str :=
  let full := if hasPre ['/'] p then p else cwd ++ '/' :: p
  '/' :: joinParts (normalizeParts false full)

def segsOf (p : Str) : List Str := (splitSep p).filter fun s => s ≠ []

def dropCommon : List Str → List Str → List Str × List Str
  | a :: as, b :: bs => if a = b then dropCommon as bs else (a :: as, b :: bs)
  | as, bs => (as, bs)

/-- Node `path.posix.relative` (with `process.cwd()` explicit): resolve both
paths, drop the common leading segments, climb with `..` and descend. -/
def pathRelative (cwd src dst : Str) : Str :=
  let f := pathResolve cwd src
  let t := pathResolve cwd dst
  if f = t then []
  else
    let (fr, tr) := dropCommon (segsOf f) (segsOf t)
    joinParts ((fr.map fun _ => ['.', '.']) ++ tr)

/-! ## Module Namer — `pathToGoogModuleName`

Two variants live in `compiler_host.ts`: `TsickleHost.pathToGoogModuleName`
(distribution pattern `dist/packages-dist/<pkg>/esm/<rest>`) and
`DecoratorDownlevelCompilerHost.pathToGoogModuleName` (distribution pattern
`dist/packages-closure/<pkg>/<rest>`).  Everything else is identical. -/

/-- `s.replace(/\.js$/, '')`. -/
def stripJs (s : Str) : Str := dropSuf ".js".toList s

/-- Longest run of characters other than `/` (the regex class `[^\/]+` is
greedy and, being followed by a literal `/`, never backtracks short). -/
def takeNoSlash (s : Str) : Str := s.takeWhile fun c => c ≠ '/'

/-- Longest run matched by a greedy trailing `(.*)`: `.` stops at a newline. -/
def takeNoNewline (s : Str) : Str := s.takeWhile fun c => c ≠ '\n'

/-- Match of `dist\/packages-dist\/([^\/]+)\/esm\/(.*)` anchored at the head
of `s`: returns `(pkg, impt, rest-after-match)`. -/
def distMatchAtT (s : Str) : Option (Str × Str × Str) :=
  if hasPre "dist/packages-dist/".toList s then
    let s1 := s.drop 19
    let pkg := takeNoSlash s1
    if pkg = [] then none
    else
      let s2 := s1.drop pkg.length
      if hasPre "/esm/".toList s2 then
        let impt := takeNoNewline (s2.drop 5)
        some (pkg, impt, (s2.drop 5).drop impt.length)
      else none
  else none

/-- Leftmost match of the `packages-dist` pattern: `(pre, pkg, impt, post)`. -/
def distScanT : Str → Option (Str × Str × Str × Str)
  | [] => none
  | c :: cs =>
    match distMatchAtT (c :: cs) with
    | some (pkg, impt, post) => some ([], pkg, impt, post)
    | none =>
      match distScanT cs with
      | some (pre, pkg, impt, post) => some (c :: pre, pkg, impt, post)
      | none => none

/-- The `dist.test` / `replace(dist, ...)` / `replace(/\/index$/, '')` block of
`TsickleHost.pathToGoogModuleName`. -/
def distRewriteT (s : Str) : Str :=
  match distScanT s with
  | none => s
  | some (pre, pkg, impt, post) =>
    dropSuf "/index".toList (pre ++ "@angular/".toList ++ pkg ++ '/' :: impt ++ post)

/-- Match of `dist\/packages-closure\/([^\/]+)\/(.*)` anchored at the head. -/
def distMatchAtD (s : Str) : Option (Str × Str × Str) :=
  if hasPre "dist/packages-closure/".toList s then
    let s1 := s.drop 22
    let pkg := takeNoSlash s1
    if pkg = [] then none
    else
      let s2 := s1.drop pkg.length
      if hasPre ['/'] s2 then
        let impt := takeNoNewline (s2.drop 1)
        some (pkg, impt, (s2.drop 1).drop impt.length)
      else none
  else none

def distScanD : Str → Option (Str × Str × Str × Str)
  | [] => none
  | c :: cs =>
    match distMatchAtD (c :: cs) with
    | some (pkg, impt, post) => some ([], pkg, impt, post)
    | none =>
      match distScanD cs with
      | some (pre, pkg, impt, post) => some (c :: pre, pkg, impt, post)
      | none => none

def distRewriteD (s : Str) : Str :=
  match distScanD s with
  | none => s
  | some (pre, pkg, impt, post) =>
    dropSuf "/index".toList (pre ++ "@angular/".toList ++ pkg ++ '/' :: impt ++ post)

/-- First character admitted by `goog.module` names: `[a-zA-Z_$]`. -/
def googHead (c : Char) : Bool := c.isAlpha || c == '_' || c == '$'

/-- Subsequent characters admitted by `goog.module` names: `[a-zA-Z0-9._$]`. -/
def googChar (c : Char) : Bool := c.isAlpha || c.isDigit || c == '.' || c == '_' || c == '$'

/-- `replace(/^[^a-zA-Z_$]/, '_')`: replace the first character when it is
not admissible as a leading identifier character (no-op on the empty string:
the anchored single-character class has nothing to match). -/
def sanitizeHead : Str → Str
  | [] => []
  | c :: cs => (if googHead c then c else '_') :: cs

/-- The sanitizing tail of both namers:
`replace(/\//g, '.')`, then `replace(/^[^a-zA-Z_$]/, '_')`, then
`replace(/[^a-zA-Z0-9._$]/g, '_')`. -/
def sanitizeModuleName (s : Str) : Str :=
  (sanitizeHead (s.map fun c => if c = '/' then '.' else c)).map
    fun c => if googChar c then c else '_'

/-- The identifier grammar `[A-Za-z_$][A-Za-z0-9._$]*` from the spec. -/
def isGoogIdent : Str → Bool
  | [] => false
  | c :: cs => googHead c && cs.all googChar

namespace TsickleHost

/-- `TsickleHost.pathToGoogModuleName` (compiler_host.ts, first version):
strip `.js`, resolve a relative specifier against `dirname context`, rewrite
the `dist/packages-dist/…/esm/…` pattern to `@angular/…` dropping a trailing
`/index`, then sanitize. -/
def pathToGoogModuleName (context importPath : Str) : Str :=
  sanitizeModuleName (distRewriteT
    (if (stripJs importPath).head? = some '.' then
      pathJoin (pathDirname context) (stripJs importPath)
    else stripJs importPath))

end TsickleHost

namespace DecoratorDownlevelCompilerHost

/-- `DecoratorDownlevelCompilerHost.pathToGoogModuleName` (compiler_host.ts,
second version): same shape, distribution pattern `dist/packages-closure`. -/
def pathToGoogModuleName (context importPath : Str) : Str :=
  sanitizeModuleName (distRewriteD
    (if (stripJs importPath).head? = some '.' then
      pathJoin (pathDirname context) (stripJs importPath)
    else stripJs importPath))

end DecoratorDownlevelCompilerHost

/-! ## Annotation Conversion Host — `DecoratorDownlevelCompilerHost.getSourceFile`

`tsickle.convertDecorators` is external; it is abstracted as a function from
the file name to either a thrown error or a conversion result.  A parsed
source file (`ts.createSourceFile fileName text`) is modelled as the pair of
name and text; the diagnostics pushed onto `this.diagnostics` are returned
alongside. -/

structure SrcFile where
  fileName : Str
  text : Str
deriving DecidableEq

structure ConvertResult (Diag : Type) where
  output : Str
  diagnostics : List Diag

/-- The `ANNOTATION_SUPPORT` preamble appended after decorator conversion. -/
def ANNOTATION_SUPPORT : Str :=
  "\ninterface DecoratorInvocation \x7b\n  type: Function;\n  args?: any[];\n\x7d\n".toList

namespace DecoratorDownlevelCompilerHost

/-- `getSourceFile`: read the original content; a `.d.ts` file is parsed as
is; otherwise `convertDecorators` runs — a thrown conversion error is
re-thrown (`Except.error`), a success has the runtime-support text appended
and is parsed, with its diagnostics accumulated. -/
def getSourceFile {Err Diag : Type} (readFile : Str → Str)
    (convertDecorators : Str → Except Err (ConvertResult Diag))
    (fileName : Str) : Except Err (SrcFile × List Diag) :=
  let originalContent := readFile fileName
  if hasSuf ".d.ts".toList fileName then Except.ok (⟨fileName, originalContent⟩, [])
  else
    match convertDecorators fileName with
    | Except.error e => Except.error e
    | Except.ok conv => Except.ok (⟨fileName, conv.output ++ ANNOTATION_SUPPORT⟩, conv.diagnostics)

end DecoratorDownlevelCompilerHost

/-! ## Metadata-Writing Host — `MetadataWriterHost.writeFile`

The two `MetadataCollector` instances, the `.original` walk and
`JSON.stringify` are external and abstracted into an environment.  A call to
`writeFile` is modelled as returning either a thrown error or the list of
write actions it performs, in order. -/

inductive HostAction where
  /-- `this.delegate.writeFile(fileName, data, writeByteOrderMark, ...)`. -/
  | forwardWrite (fileName data : Str) (writeByteOrderMark : Bool)
  /-- `writeFileSync(path, metadataText)` from `writeMetadata`. -/
  | metadataWrite (path text : Str)
deriving DecidableEq

inductive WriteError where
  /-- `Metadata emit requires the sourceFiles are passed to WriteFileCallback...` -/
  | noSourceFiles
  /-- `Bundled emit with --out is not supported` -/
  | bundledEmit
deriving DecidableEq

structure MetadataEnv (SF MD : Type) where
  /-- the `while (collectableFile.original)` walk (identity before TS 2.1) -/
  originalOf : Option SF → Option SF
  /-- `metadataCollector.getMetadata(f, strict)` (quotedNames collector) -/
  getMetadata : Option SF → Bool → Option MD
  /-- `metadataCollector1.getMetadata(f, false)` (schema-version-1 collector) -/
  getMetadata1 : Option SF → Option MD
  /-- `JSON.stringify` of the metadata array -/
  stringifyArr : List MD → Str

/-- `IGNORED_FILES = /\.ngfactory\.js$|\.ngstyle\.js$/` (second version). -/
def IGNORED_FILES (fileName : Str) : Bool :=
  hasSuf ".ngfactory.js".toList fileName || hasSuf ".ngstyle.js".toList fileName

namespace MetadataWriterHost

/-- `writeMetadata(emitFilePath, sourceFile)`: only for a `.js` path, derive
the sidecar path by replacing the extension, collect with both collectors,
keep the non-null documents and write their JSON when any exist. -/
def writeMetadata {SF MD : Type} (env : MetadataEnv SF MD) (strictMetadataEmit : Bool)
    (emitFilePath : Str) (sourceFile : Option SF) : List HostAction :=
  if hasSuf ".js".toList emitFilePath then
    if ([env.getMetadata (env.originalOf sourceFile) strictMetadataEmit,
        env.getMetadata1 (env.originalOf sourceFile)].filterMap id).isEmpty then []
    else
      [HostAction.metadataWrite
        (dropSuf ".js".toList emitFilePath ++ ".metadata.json".toList)
        (env.stringifyArr
          ([env.getMetadata (env.originalOf sourceFile) strictMetadataEmit,
            env.getMetadata1 (env.originalOf sourceFile)].filterMap id))]
  else []

/-- `MetadataWriterHost.writeFile` (second version, the one used with the
`ngfactory/ngstyle` ignore list): a `.d.ts` write is forwarded to the
delegate and the call returns; an ignored generated file produces nothing; a
missing source-file list or a bundled (multi-file) emit throws; otherwise the
metadata of `sourceFiles[0]` is written.  Note that the primary `.js` data is
never forwarded here. -/
def writeFile {SF MD : Type} (env : MetadataEnv SF MD) (strictMetadataEmit : Bool)
    (fileName data : Str) (writeByteOrderMark : Bool) (sourceFiles : Option (List SF)) :
    Except WriteError (List HostAction) :=
  if hasSuf ".d.ts".toList fileName then
    Except.ok [HostAction.forwardWrite fileName data writeByteOrderMark]
  else if IGNORED_FILES fileName then Except.ok []
  else
    match sourceFiles with
    | none => Except.error WriteError.noSourceFiles
    | some sfs =>
      if sfs.length > 1 then Except.error WriteError.bundledEmit
      else Except.ok (writeMetadata env strictMetadataEmit fileName sfs.head?)

end MetadataWriterHost

/-! ## Code Generator -/

structure CodegenOptions where
  basePath : Str
  rootDirs : List Str
  genDir : Str

structure GeneratedModule where
  moduleUrl : Str
  source : Str
deriving DecidableEq

/-- A `host.writeFile(emitPath, PREAMBLE + source, false, noop, [sourceFile])`
call issued by `codegen`. -/
structure GenWrite where
  path : Str
  text : Str
deriving DecidableEq

/-- The fixed generated-file preamble. -/
def PREAMBLE : Str :=
  "/**\n * This file is generated by the Angular 2 template compiler.\n * Do not edit.\n */\n /* tslint:disable */\n\n".toList

/-- `path.relative(eachRootDir, filePath).indexOf('.') !== 0`: the relative
path does not start with a `.` character. -/
def rootCandidate (cwd filePath eachRootDir : Str) : Bool :=
  !((pathRelative cwd eachRootDir filePath).head? == some '.')

/-- `while (relativePath.startsWith('..' + path.sep)) relativePath = relativePath.substr(3)`. -/
def stripLeadParent : Str → Str
  | '.' :: '.' :: '/' :: rest => stripLeadParent rest
  | s => s

namespace CodeGenerator

/-- `CodeGenerator.calculateEmitPath`: pick the last configured root
directory whose relative path to the file does not start with `.` (falling
back to `basePath`), strip leading `../` segments of the relative path, and
re-root under `genDir`. -/
def calculateEmitPath (cwd : Str) (options : CodegenOptions) (filePath : Str) : Str :=
  let root := options.rootDirs.foldl
    (fun root eachRootDir =>
      if rootCandidate cwd filePath eachRootDir then eachRootDir else root)
    options.basePath
  pathJoin options.genDir (stripLeadParent (pathRelative cwd root filePath))

end CodeGenerator

/-- Spec-side emit-path formula, following the claim's words: the chosen root
is the configured root directory under which the relative path does not begin
with parent-directory segments (`..` or `../…`), falling back to `basePath`.
Kept separate from the source translation for comparison. -/
def beginsWithParentSeg (s : Str) : Bool := (s == "..".toList) || hasPre "../".toList s

def specEmitPath (cwd : Str) (options : CodegenOptions) (filePath : Str) : Str :=
  let root := options.rootDirs.foldl
    (fun root eachRootDir =>
      if !beginsWithParentSeg (pathRelative cwd eachRootDir filePath) then eachRootDir else root)
    options.basePath
  pathJoin options.genDir (stripLeadParent (pathRelative cwd root filePath))

/-! ### The chained-accessor textual workaround

`codegen` post-processes each generated source with two passes of a regex
patch.  `errorRegex = /this\.parent\.[^\.]+\.transform/g` (and the
`parent.parent` variant), `fixRegex = /<(.*?)>this\.parent/` (resp.
`…parent\.parent`).  The scanners below implement exactly these regexes:
a member segment `[^\.]+` is a maximal non-empty dot-free run (it can never
backtrack shorter, being followed by a literal dot), `(.*?)` is the lazy
shortest newline-free group at the leftmost viable start. -/

/-- Match of the error pattern anchored at the head of `s`; returns the
matched substring. -/
def chainMatchAt (lvl2 : Bool) (s : Str) : Option Str :=
  let lit := if lvl2 then "this.parent.parent.".toList else "this.parent.".toList
  if hasPre lit s then
    let s1 := s.drop lit.length
    let mem := s1.takeWhile fun c => c ≠ '.'
    if mem ≠ [] ∧ hasPre ".transform".toList (s1.drop mem.length) then
      some (lit ++ mem ++ ".transform".toList)
    else none
  else none

/-- All matches of the global error regex, leftmost and non-overlapping, as
`source.match(errorRegex)` returns them (fuel = length of the string). -/
def chainMatchesAux (lvl2 : Bool) : Nat → Str → List Str
  | 0, _ => []
  | _, [] => []
  | fuel + 1, c :: cs =>
    match chainMatchAt lvl2 (c :: cs) with
    | some m => m :: chainMatchesAux lvl2 fuel ((c :: cs).drop m.length)
    | none => chainMatchesAux lvl2 fuel cs

def chainMatches (lvl2 : Bool) (s : Str) : List Str := chainMatchesAux lvl2 s.length s

/-- Lazy group of `<(.*?)>lit` starting right after a `<`: the shortest
newline-free `T` with `>` and `lit` following. -/
def castGroupFrom (lit : Str) : Str → Option Str
  | [] => none
  | c :: cs =>
    if hasPre ('>' :: lit) (c :: cs) then some []
    else if c = '\n' then none
    else
      match castGroupFrom lit cs with
      | some t => some (c :: t)
      | none => none

/-- `fixRegex.exec(source)`: group 1 of the leftmost match of `<(.*?)>lit`. -/
def findCastGroup (lit : Str) : Str → Option Str
  | [] => none
  | '<' :: rest =>
    match castGroupFrom lit rest with
    | some t => some t
    | none => findCastGroup lit rest
  | _ :: rest => findCastGroup lit rest

/-- One pass of the workaround (`lvl2 = false`: the `this.parent.<member>`
block; `lvl2 = true`: the `this.parent.parent.<member>` block): if the error
pattern occurs and a cast pattern exists, each match in the match list has
its first occurrence in the evolving source replaced by
`'(<' + T + '>this.parent)' + match.substr(11 or 18)`. -/
def applyChainFix (lvl2 : Bool) (source : Str) : Str :=
  let errorMatches := chainMatches lvl2 source
  if errorMatches = [] then source
  else
    match findCastGroup
        (if lvl2 then "this.parent.parent".toList else "this.parent".toList) source with
    | none => source
    | some t =>
      errorMatches.foldl
        (fun src em =>
          replaceFirstStr src em
            ("(<".toList ++ t ++ ">this.parent)".toList ++ em.drop (if lvl2 then 18 else 11)))
        source

/-- Both passes, in source order: one-level chain first, then two-level. -/
def fixGeneratedSource (source : Str) : Str :=
  applyChainFix true (applyChainFix false source)

namespace CodeGenerator

/-- The write issued for one generated module:
`host.writeFile(calculateEmitPath(moduleUrl), PREAMBLE + patchedSource, ...)`. -/
def emitGeneratedModule (cwd : Str) (options : CodegenOptions) (g : GeneratedModule) : GenWrite :=
  ⟨calculateEmitPath cwd options g.moduleUrl, PREAMBLE ++ fixGeneratedSource g.source⟩

/-- The per-file generation task: `compiler.compile(...).then(write each
generated module)`.  A rejected compile contributes no writes and carries its
error; a fulfilled one performs its own writes regardless of other files. -/
def runFileTask {ε : Type} (cwd : Str) (options : CodegenOptions) :
    Except ε (List GeneratedModule) → List GenWrite × Option ε
  | Except.error e => ([], some e)
  | Except.ok mods => (mods.map (emitGeneratedModule cwd options), none)

/-- `Promise.all` over the per-file tasks: rejects with the first task
rejection, fulfills when none rejected. -/
def promiseAllTasks {ε : Type} (tasks : List (List GenWrite × Option ε)) :
    Except ε (List Unit) :=
  match (tasks.map Prod.snd).findSome? id with
  | some e => Except.error e
  | none => Except.ok (tasks.map fun _ => ())

/-- `codegen()`: run every file's task, aggregate with `Promise.all`, and
`.catch(e => console.error(e.stack))` at the top.  Result: the writes
performed (each task's own, in task order), the errors logged by the catch
handler, and the settled state of the returned promise. -/
def codegen {ε : Type} (cwd : Str) (options : CodegenOptions)
    (compileResults : List (Except ε (List GeneratedModule))) :
    List GenWrite × List ε × Except ε Unit :=
  (((compileResults.map (runFileTask cwd options)).map Prod.fst).flatten,
    match promiseAllTasks (compileResults.map (runFileTask cwd options)) with
    | Except.error e => [e]
    | Except.ok _ => [],
    match promiseAllTasks (compileResults.map (runFileTask cwd options)) with
    | Except.error _ => Except.ok ()
    | Except.ok _ => Except.ok ())

end CodeGenerator

/-! ### Concrete instances used by witnesses -/

/-- A trivial metadata environment over unit types: the quotedNames collector
always finds metadata, the version-1 collector never does. -/
def sampleEnv : MetadataEnv Unit Unit where
  originalOf := id
  getMetadata := fun _ _ => some ()
  getMetadata1 := fun _ => none
  stringifyArr := fun _ => "[]".toList

/-- A read-file stub returning fixed content. -/
def sampleRead : Str → Str := fun _ => "let x: number = 1;".toList

/-- A decorator converter that always throws. -/
def sampleConvertErr : Str → Except Unit (ConvertResult Unit) := fun _ => Except.error ()

def sampleOptions : CodegenOptions :=
  ⟨"/b".toList, ["/r".toList], "/g".toList⟩

/-- A generated module used by witnesses. -/
def sampleModule : GeneratedModule :=
  ⟨"/r/u.ngfactory.ts".toList, "var a = 1;".toList⟩

/-! ## Helper lemmas -/

theorem googHead_googChar (c : Char) (h : googHead c = true) : googChar c = true := by
  simp [googHead, googChar] at *
  tauto

theorem sanitize_isIdent (s : Str) (h : s ≠ []) :
    isGoogIdent (sanitizeModuleName s) = true := by
  cases s with
  | nil => exact absurd rfl h
  | cons c cs =>
    simp only [sanitizeModuleName, List.map_cons, sanitizeHead, List.all_eq_true, isGoogIdent,
      Bool.and_eq_true]
    constructor
    · by_cases hx : googHead (if c = '/' then '.' else c) = true
      · rw [if_pos hx, if_pos (googHead_googChar _ hx)]
        exact hx
      · rw [if_neg hx]
        decide
    · intro a ha
      simp only [List.mem_map] at ha
      obtain ⟨b, _, hb⟩ := ha
      subst hb
      by_cases hgb : googChar b = true
      · rw [if_pos hgb]; exact hgb
      · rw [if_neg hgb]; decide

theorem sanitize_nil : sanitizeModuleName [] = [] := rfl

theorem pathNormCore_ne_nil (a t : Bool) (n0 : Str) : pathNormCore a t n0 ≠ [] := by
  unfold pathNormCore
  cases a <;> cases t <;> cases n0 <;> simp

theorem pathNormalize_ne_nil (p : Str) : pathNormalize p ≠ [] := by
  unfold pathNormalize
  split
  · simp
  · exact pathNormCore_ne_nil _ _ _

theorem pathJoin_ne_nil (a b : Str) : pathJoin a b ≠ [] := by
  unfold pathJoin
  split
  · simp
  · exact pathNormalize_ne_nil _

theorem dropSuf_long_ne_nil (pat r : Str) (h : pat.length < r.length) : dropSuf pat r ≠ [] := by
  unfold dropSuf
  have hr : r ≠ [] := by
    intro hc
    rw [hc] at h
    simp at h
  split
  · intro hc
    have := congrArg List.length hc
    rw [List.length_take] at this
    simp at this
    omega
  · exact hr

theorem distRewriteT_ne_nil (s : Str) (h : s ≠ []) : distRewriteT s ≠ [] := by
  unfold distRewriteT
  cases hm : distScanT s with
  | none => exact h
  | some q =>
    obtain ⟨pre, pkg, impt, post⟩ := q
    apply dropSuf_long_ne_nil
    simp [List.length_append]
    omega

theorem distRewriteD_ne_nil (s : Str) (h : s ≠ []) : distRewriteD s ≠ [] := by
  unfold distRewriteD
  cases hm : distScanD s with
  | none => exact h
  | some q =>
    obtain ⟨pre, pkg, impt, post⟩ := q
    apply dropSuf_long_ne_nil
    simp [List.length_append]
    omega

theorem stripJs_head (s : Str) (h : s.head? ≠ some '.') : (stripJs s).head? ≠ some '.' := by
  unfold stripJs dropSuf
  split
  · cases s with
    | nil => simp
    | cons a as =>
      cases hn : (a :: as).length - ".js".toList.length with
      | zero => simp [hn]
      | succ k =>
        rw [List.take_succ_cons]
        simpa using h
  · exact h

theorem getLast?_cons_isSome {α : Type} : ∀ (t : List α) (y : α), ∃ z, (y :: t).getLast? = some z
  | [], y => ⟨y, rfl⟩
  | b :: t, y => by
    rw [List.getLast?_cons_cons]
    exact getLast?_cons_isSome t b

theorem getLast?_getD_cons {α : Type} : ∀ (l : List α) (x init : α),
    ((x :: l).getLast?).getD init = (l.getLast?).getD x
  | [], _, _ => rfl
  | y :: t, x, init => by
    rw [List.getLast?_cons_cons]
    obtain ⟨z, hz⟩ := getLast?_cons_isSome t y
    rw [hz]
    rfl

theorem foldl_pick_last {α : Type} (p : α → Bool) :
    ∀ (l : List α) (init : α),
      l.foldl (fun acc d => if p d then d else acc) init
        = ((l.filter p).getLast?).getD init
  | [], _ => rfl
  | x :: xs, init => by
    by_cases hx : p x = true
    · rw [List.foldl_cons, if_pos hx, List.filter_cons_of_pos hx,
        getLast?_getD_cons, ← foldl_pick_last p xs x]
    · rw [List.foldl_cons, if_neg hx, List.filter_cons_of_neg (by simp [hx]),
        ← foldl_pick_last p xs init]

theorem flatten_map_get? {α β : Type} (f : α → List β) :
    ∀ (l : List α) (j : Nat) (x : α), l.get? j = some x →
      ∃ pre post, (l.map f).flatten = pre ++ f x ++ post := by
  intro l
  induction l with
  | nil => intro j x h; simp at h
  | cons a as ih =>
    intro j x h
    cases j with
    | zero =>
      simp only [List.get?_cons_zero, Option.some.injEq] at h
      subst h
      exact ⟨[], (as.map f).flatten, by simp⟩
    | succ j =>
      rw [List.get?_cons_succ] at h
      obtain ⟨pre, post, hp⟩ := ih j x h
      exact ⟨f a ++ pre, post, by simp [hp]⟩

theorem findSome?_of_get? {α : Type} :
    ∀ (l : List (Option α)) (i : Nat) (x : α), l.get? i = some (some x) →
      ∃ y, l.findSome? id = some y
  | [], i, x, h => by simp at h
  | a :: as, i, x, h => by
    cases a with
    | some y => exact ⟨y, rfl⟩
    | none =>
      cases i with
      | zero => simp at h
      | succ i =>
        rw [List.get?_cons_succ] at h
        obtain ⟨y, hy⟩ := findSome?_of_get? as i x h
        exact ⟨y, by rw [List.findSome?_cons]; exact hy⟩

theorem applyChainFix_noMatch (lvl2 : Bool) (s : Str) (h : chainMatches lvl2 s = []) :
    applyChainFix lvl2 s = s := by
  unfold applyChainFix
  rw [h]
  simp

theorem fix_unchanged (s : Str) (h1 : chainMatches false s = [])
    (h2 : chainMatches true s = []) : fixGeneratedSource s = s := by
  unfold fixGeneratedSource
  rw [applyChainFix_noMatch false s h1, applyChainFix_noMatch true s h2]

/-! ## Claim theorems -/

theorem namer_shape_ident (rwf : Str → Str) (hrw : ∀ s, s ≠ [] → rwf s ≠ [])
    (context importPath : Str) (h : stripJs importPath ≠ []) :
    isGoogIdent (sanitizeModuleName (rwf
      (if (stripJs importPath).head? = some '.' then
        pathJoin (pathDirname context) (stripJs importPath)
      else stripJs importPath))) = true := by
  apply sanitize_isIdent
  apply hrw
  split
  · exact pathJoin_ne_nil _ _
  · exact h

/-- Claim C1 (amended).  Both `pathToGoogModuleName` variants are total and
deterministic (they are pure functions of their two arguments); for every
pair whose import specifier is non-empty after stripping the `.js`
extension, the result matches the identifier grammar
`[A-Za-z_$][A-Za-z0-9._$]*`.  For a specifier that is empty after stripping,
however, the result is the empty string — not a single underscore, and not a
member of the grammar — because the anchored first-character replacement has
no character to rewrite. -/
theorem C1_amended (context importPath : Str) :
    (stripJs importPath = [] ∧
      TsickleHost.pathToGoogModuleName context importPath = [] ∧
      DecoratorDownlevelCompilerHost.pathToGoogModuleName context importPath = []) ∨
    (isGoogIdent (TsickleHost.pathToGoogModuleName context importPath) = true ∧
      isGoogIdent (DecoratorDownlevelCompilerHost.pathToGoogModuleName context importPath) = true) := by
  by_cases h : stripJs importPath = []
  · left
    refine ⟨h, ?_, ?_⟩ <;>
      simp [TsickleHost.pathToGoogModuleName, DecoratorDownlevelCompilerHost.pathToGoogModuleName,
        h, distRewriteT, distRewriteD, distScanT, distScanD, sanitizeModuleName, sanitizeHead]
  · right
    exact ⟨namer_shape_ident distRewriteT distRewriteT_ne_nil context importPath h,
      namer_shape_ident distRewriteD distRewriteD_ne_nil context importPath h⟩

/-- Claim C1 counterexample.  The import specifier `".js"` is empty after
stripping the trailing extension, and both Module Namer variants return the
empty string, which does not match `[A-Za-z_$][A-Za-z0-9._$]*` — contradicting
the claim that every input, including this edge case, yields a string in the
identifier grammar. -/
theorem C1_counterexample :
    TsickleHost.pathToGoogModuleName "some-file".toList ".js".toList = [] ∧
    DecoratorDownlevelCompilerHost.pathToGoogModuleName "some-file".toList ".js".toList = [] ∧
    isGoogIdent (TsickleHost.pathToGoogModuleName "some-file".toList ".js".toList) = false := by
  decide

/-- Claim C2 (evaluation of the code at the failing inputs).  The claim — and
the repository's own unit test and the function's own doc comment
("replaces '/' with '$' to have a flat name") — expect
`_angular$core$place$testing` and `other__file`.  The code instead flattens
with `.` and never doubles underscores: `TsickleHost.pathToGoogModuleName`
(whose distribution pattern `dist/packages-dist/.../esm/...` does fire here)
returns `_angular.core.place.testing`, the
`DecoratorDownlevelCompilerHost` variant exercised by the unit test (pattern
`dist/packages-closure/...`, which does not fire) returns
`dist.packages_dist.core.esm.place.testing`, and both return `other_file`
for `./other_file`. -/
theorem C2_theorem :
    TsickleHost.pathToGoogModuleName "some-file".toList
        "dist/packages-dist/core/esm/place/testing".toList
      = "_angular.core.place.testing".toList ∧
    TsickleHost.pathToGoogModuleName "some-file".toList "./other_file".toList
      = "other_file".toList ∧
    DecoratorDownlevelCompilerHost.pathToGoogModuleName "some-file.ts".toList
        "dist/packages-dist/core/esm/place/testing".toList
      = "dist.packages_dist.core.esm.place.testing".toList ∧
    DecoratorDownlevelCompilerHost.pathToGoogModuleName "some-file.ts".toList
        "./other_file".toList
      = "other_file".toList ∧
    "_angular.core.place.testing".toList ≠ "_angular$core$place$testing".toList ∧
    "dist.packages_dist.core.esm.place.testing".toList
      ≠ "_angular$core$place$testing".toList ∧
    "other_file".toList ≠ "other__file".toList := by
  refine ⟨by decide, by decide, by decide, by decide, by decide, by decide, by decide⟩

/-- Claim C10.  For a non-relative import specifier (one that does not start
with `.`), both Module Namer variants ignore the context path entirely: the
context is consulted only on the relative branch. -/
theorem C10_theorem (c1 c2 s : Str) (h : s.head? ≠ some '.') :
    TsickleHost.pathToGoogModuleName c1 s = TsickleHost.pathToGoogModuleName c2 s ∧
    DecoratorDownlevelCompilerHost.pathToGoogModuleName c1 s
      = DecoratorDownlevelCompilerHost.pathToGoogModuleName c2 s := by
  have h' := stripJs_head s h
  constructor <;>
    simp [TsickleHost.pathToGoogModuleName, DecoratorDownlevelCompilerHost.pathToGoogModuleName, h']

/-- Witness for C10 at a concrete non-relative specifier and two contexts. -/
theorem C10_witness :
    ("@angular/core".toList : Str).head? ≠ some '.' ∧
    TsickleHost.pathToGoogModuleName "ctx/one".toList "@angular/core".toList
      = TsickleHost.pathToGoogModuleName "other/ctx".toList "@angular/core".toList ∧
    DecoratorDownlevelCompilerHost.pathToGoogModuleName "ctx/one".toList "@angular/core".toList
      = DecoratorDownlevelCompilerHost.pathToGoogModuleName "other/ctx".toList "@angular/core".toList :=
  ⟨by decide, ( C10_theorem "ctx/one".toList "other/ctx".toList "@angular/core".toList (by decide)).1,
    ( C10_theorem "ctx/one".toList "other/ctx".toList "@angular/core".toList (by decide)).2⟩

/-- Claim C3 counterexample.  A write of a non-excluded compiled-output unit
`a.js`: the host performs only the metadata sidecar write — the primary write
is never forwarded to the inner host, contradicting the claim that the write
is "first forwarded unchanged" before metadata is collected. -/
theorem C3_counterexample :
    MetadataWriterHost.writeFile sampleEnv false "a.js".toList "x".toList false (some [()])
      = Except.ok [HostAction.metadataWrite "a.metadata.json".toList "[]".toList] ∧
    HostAction.forwardWrite "a.js".toList "x".toList false
      ∉ [HostAction.metadataWrite "a.metadata.json".toList "[]".toList] :=
  ⟨rfl, by decide⟩

/-- Claim C3 (amended).  For a writeFile call of the Metadata-Writing Host on
a compiled-output (`.js`) unit that is neither a declaration file nor an
excluded generated file, with exactly one associated source unit: the primary
write is NOT forwarded to the inner host (the `.js` emission is handled by a
separate emit pass of the pipeline); the call only collects the unit's
metadata and, when any is present, writes it serialized as a sidecar at the
derived path (`.js` replaced by `.metadata.json`). -/
theorem C3_amended {SF MD : Type} (env : MetadataEnv SF MD) (strict : Bool)
    (fileName data : Str) (bom : Bool) (sf : SF)
    (hjs : hasSuf ".js".toList fileName = true)
    (hdts : hasSuf ".d.ts".toList fileName = false)
    (hign : IGNORED_FILES fileName = false) :
    MetadataWriterHost.writeFile env strict fileName data bom (some [sf])
      = Except.ok (MetadataWriterHost.writeMetadata env strict fileName (some sf)) ∧
    ∀ a ∈ MetadataWriterHost.writeMetadata env strict fileName (some sf),
      a = HostAction.metadataWrite
        (dropSuf ".js".toList fileName ++ ".metadata.json".toList)
        (env.stringifyArr
          ([env.getMetadata (env.originalOf (some sf)) strict,
            env.getMetadata1 (env.originalOf (some sf))].filterMap id)) := by
  constructor
  · unfold MetadataWriterHost.writeFile
    rw [hdts, hign]
    simp
  · intro a ha
    unfold MetadataWriterHost.writeMetadata at ha
    rw [if_pos hjs] at ha
    split at ha
    · simp at ha
    · simpa using ha

/-- Witness for C3 (amended) at the concrete environment and file `b.js`. -/
theorem C3_witness :
    hasSuf ".js".toList "b.js".toList = true ∧
    hasSuf ".d.ts".toList "b.js".toList = false ∧
    IGNORED_FILES "b.js".toList = false ∧
    MetadataWriterHost.writeFile sampleEnv false "b.js".toList "y".toList false (some [()])
      = Except.ok (MetadataWriterHost.writeMetadata sampleEnv false "b.js".toList (some ())) :=
  ⟨by decide, by decide, by decide,
    (C3_amended sampleEnv false "b.js".toList "y".toList false () (by decide) (by decide)
      (by decide)).1⟩

/-- Claim C4.  On a non-declaration, non-excluded file, a missing source-unit
list or a list of more than one unit makes `writeFile` fail immediately with
the corresponding reported error (`Except.error`), performing no write at
all — in particular no metadata sidecar. -/
theorem C4_theorem {SF MD : Type} (env : MetadataEnv SF MD) (strict : Bool)
    (fileName data : Str) (bom : Bool)
    (hdts : hasSuf ".d.ts".toList fileName = false)
    (hign : IGNORED_FILES fileName = false) :
    MetadataWriterHost.writeFile env strict fileName data bom none
      = Except.error WriteError.noSourceFiles ∧
    ∀ sfs : List SF, 1 < sfs.length →
      MetadataWriterHost.writeFile env strict fileName data bom (some sfs)
        = Except.error WriteError.bundledEmit := by
  constructor
  · unfold MetadataWriterHost.writeFile
    rw [hdts, hign]
    simp
  · intro sfs hlen
    unfold MetadataWriterHost.writeFile
    rw [hdts, hign]
    simp [hlen]

/-- Witness for C4 at `c.js` with an absent list and with a two-unit list. -/
theorem C4_witness :
    hasSuf ".d.ts".toList "c.js".toList = false ∧
    IGNORED_FILES "c.js".toList = false ∧
    MetadataWriterHost.writeFile sampleEnv false "c.js".toList "z".toList false none
      = Except.error WriteError.noSourceFiles ∧
    MetadataWriterHost.writeFile sampleEnv false "c.js".toList "z".toList false (some [(), ()])
      = Except.error WriteError.bundledEmit :=
  ⟨by decide, by decide,
    (C4_theorem sampleEnv false "c.js".toList "z".toList false (by decide) (by decide)).1,
    (C4_theorem sampleEnv false "c.js".toList "z".toList false (by decide) (by decide)).2
      [(), ()] (by decide)⟩

/-- Claim C9.  A writeFile call of the Metadata-Writing Host on a declaration
(`.d.ts`) file forwards the primary write to the inner host and returns
immediately: the forwarded write is the only action, and no metadata is
collected or written. -/
theorem C9_theorem {SF MD : Type} (env : MetadataEnv SF MD) (strict : Bool)
    (fileName data : Str) (bom : Bool) (sourceFiles : Option (List SF))
    (h : hasSuf ".d.ts".toList fileName = true) :
    MetadataWriterHost.writeFile env strict fileName data bom sourceFiles
      = Except.ok [HostAction.forwardWrite fileName data bom] := by
  unfold MetadataWriterHost.writeFile
  rw [h]
  simp

/-- Witness for C9 at the declaration file `d.d.ts`. -/
theorem C9_witness :
    hasSuf ".d.ts".toList "d.d.ts".toList = true ∧
    MetadataWriterHost.writeFile sampleEnv true "d.d.ts".toList "w".toList true (some [()])
      = Except.ok [HostAction.forwardWrite "d.d.ts".toList "w".toList true] :=
  ⟨by decide,
    C9_theorem sampleEnv true "d.d.ts".toList "w".toList true (some [()]) (by decide)⟩

/-- Claim C5.  In `codegen()`, the failure of a single file's generation task
is reported through the top-level catch handler — the returned promise still
resolves (`Except.ok ()`) — and it does not prevent the generation and
writing of the other files' outputs: every file whose compile result is
fulfilled contributes its own writes, as a contiguous block of the performed
write list, independently of the failing file. -/
theorem C5_theorem {ε : Type} (cwd : Str) (options : CodegenOptions)
    (rs : List (Except ε (List GeneratedModule))) (i : Nat) (e : ε)
    (hi : rs.get? i = some (Except.error e)) :
    (CodeGenerator.codegen cwd options rs).2.2 = Except.ok () ∧
    (CodeGenerator.codegen cwd options rs).2.1 ≠ [] ∧
    ∀ j mods, rs.get? j = some (Except.ok mods) →
      ∃ pre post, (CodeGenerator.codegen cwd options rs).1
        = pre ++ mods.map (CodeGenerator.emitGeneratedModule cwd options) ++ post := by
  refine ⟨?_, ?_, ?_⟩
  · unfold CodeGenerator.codegen
    cases h : CodeGenerator.promiseAllTasks (rs.map (CodeGenerator.runFileTask cwd options)) <;>
      simp [h]
  · have hget : (((rs.map (CodeGenerator.runFileTask cwd options)).map Prod.snd).get? i)
        = some (some e) := by
      rw [List.get?_map, List.get?_map, hi]; rfl
    obtain ⟨y, hy⟩ := findSome?_of_get? _ i e hget
    unfold CodeGenerator.codegen CodeGenerator.promiseAllTasks
    rw [hy]
    simp
  · intro j mods hj
    have hEq : ((rs.map (CodeGenerator.runFileTask cwd options)).map Prod.fst)
        = rs.map fun r => (CodeGenerator.runFileTask cwd options r).1 := by
      rw [List.map_map]; rfl
    obtain ⟨pre, post, hp⟩ :=
      flatten_map_get? (fun r => (CodeGenerator.runFileTask cwd options r).1) rs j
        (Except.ok mods) hj
    refine ⟨pre, post, ?_⟩
    unfold CodeGenerator.codegen
    rw [hEq, hp]
    rfl

/-- Witness for C5: one failing file and one fulfilled file; the aggregate
resolves and the fulfilled file's write block is present. -/
theorem C5_witness :
    ([Except.error (), Except.ok [sampleModule]].get? 0 = some (Except.error ())) ∧
    (CodeGenerator.codegen "/".toList sampleOptions
        [Except.error (), Except.ok [sampleModule]]).2.2 = Except.ok () ∧
    ∃ pre post,
      (CodeGenerator.codegen "/".toList sampleOptions
          [Except.error (), Except.ok [sampleModule]]).1
        = pre ++ [sampleModule].map (CodeGenerator.emitGeneratedModule "/".toList sampleOptions)
            ++ post :=
  ⟨rfl,
    ( C5_theorem "/".toList sampleOptions [Except.error (), Except.ok [sampleModule]] 0 ()
      rfl).1,
    ( C5_theorem "/".toList sampleOptions [Except.error (), Except.ok [sampleModule]] 0 ()
      rfl).2.2 1 [sampleModule] rfl⟩

/-- Claim C6 counterexample.  In the source
`<Xthis.parent.c.transform>this.parent;; this.parent.c.transform()` the
trailing occurrence of `this.parent.c.transform` is preceded by the cast
pattern `<T>this.parent` (with `T = Xthis.parent.c.transform`), yet the
workaround leaves it untouched: the two first-occurrence replacements both
land inside the cast's type text, which contains the same chain text.  The
bare occurrence `; this.parent.c.transform()` survives in the output,
contradicting "every occurrence … is rewritten". -/
theorem C6_counterexample :
    fixGeneratedSource
        "<Xthis.parent.c.transform>this.parent;; this.parent.c.transform()".toList
      = "<X(<X(<Xthis.parent.c.transform>this.parent).c.transform>this.parent).c.transform>this.parent;; this.parent.c.transform()".toList ∧
    hasSub "; this.parent.c.transform()".toList
      (fixGeneratedSource
        "<Xthis.parent.c.transform>this.parent;; this.parent.c.transform()".toList) = true :=
  ⟨by decide, by decide⟩

/-- Claim C6 (amended).  Generated source with no occurrence of either
chained-accessor pattern is written unchanged apart from the preamble.  When
occurrences exist together with a cast pattern, the code replaces — once per
matched occurrence — the first occurrence of the matched text in the evolving
source by the first cast applied once to `this.parent`
(`(<T>this.parent).member.transform`, also collapsing `parent.parent` to a
single `parent` in the two-level pass), as the two representative rewrites
below show; but an occurrence can survive unrewritten when the cast's type
text itself contains the chain text. -/
theorem C6_amended :
    (∀ (cwd : Str) (options : CodegenOptions) (g : GeneratedModule),
      chainMatches false g.source = [] → chainMatches true g.source = [] →
      (CodeGenerator.emitGeneratedModule cwd options g).text = PREAMBLE ++ g.source) ∧
    fixGeneratedSource
        "var _pipe = <View0>this.parent.context;\nthis.parent.myPipe.transform(v);".toList
      = "var _pipe = <View0>this.parent.context;\n(<View0>this.parent).myPipe.transform(v);".toList ∧
    fixGeneratedSource
        "var x = <View1>this.parent.parent.ctx;\nthis.parent.parent.pp.transform(y);".toList
      = "var x = <View1>this.parent.parent.ctx;\n(<View1>this.parent).pp.transform(y);".toList := by
  refine ⟨?_, by decide, by decide⟩
  intro cwd options g h1 h2
  unfold CodeGenerator.emitGeneratedModule
  rw [fix_unchanged g.source h1 h2]

/-- Witness for C6 (amended) on a source with no chain occurrence. -/
theorem C6_witness :
    chainMatches false "var a = 1;".toList = [] ∧
    chainMatches true "var a = 1;".toList = [] ∧
    (CodeGenerator.emitGeneratedModule "/".toList sampleOptions sampleModule).text
      = PREAMBLE ++ "var a = 1;".toList :=
  ⟨by decide, by decide,
    C6_amended.1 "/".toList sampleOptions sampleModule (by decide) (by decide)⟩

/-- Claim C7 counterexample.  With `basePath = /b`, `rootDirs = [/r]`,
`genDir = /g` and the module URL `/r/.h/f.ts`: the relative path under `/r`
is `.h/f.ts`, which begins with a `.` character but NOT with a
parent-directory segment.  The claim's rule picks root `/r` and yields
`/g/.h/f.ts`; the code's `indexOf('.') !== 0` test rejects `/r`, falls back
to `basePath`, and yields `/g/r/.h/f.ts`. -/
theorem C7_counterexample :
    CodeGenerator.calculateEmitPath "/".toList sampleOptions "/r/.h/f.ts".toList
      = "/g/r/.h/f.ts".toList ∧
    specEmitPath "/".toList sampleOptions "/r/.h/f.ts".toList = "/g/.h/f.ts".toList ∧
    CodeGenerator.calculateEmitPath "/".toList sampleOptions "/r/.h/f.ts".toList
      ≠ specEmitPath "/".toList sampleOptions "/r/.h/f.ts".toList :=
  ⟨by decide, by decide, by decide⟩

/-- Claim C7 (amended).  The emit path is `genDir` joined with the module
URL's path relative to the chosen root, where the chosen root is the LAST
configured root directory whose relative path to the file does not start
with a `.` character (not: "does not begin with parent-directory segments"),
falling back to `basePath`; any leading `../` segments of the remaining
relative path are stripped. -/
theorem C7_amended (cwd : Str) (options : CodegenOptions) (filePath : Str) :
    CodeGenerator.calculateEmitPath cwd options filePath
      = pathJoin options.genDir (stripLeadParent (pathRelative cwd
          (((options.rootDirs.filter (rootCandidate cwd filePath)).getLast?).getD
            options.basePath)
          filePath)) := by
  unfold CodeGenerator.calculateEmitPath
  rw [foldl_pick_last]

/-- Claim C8.  `DecoratorDownlevelCompilerHost.getSourceFile`: a conversion
failure on a non-declaration file is re-thrown to the caller unchanged (no
per-file recovery), while a `.d.ts` file is returned parsed from its original
content, with no rewrite, no runtime-support preamble and no diagnostics. -/
theorem C8_theorem {Err Diag : Type} (readFile : Str → Str)
    (convertDecorators : Str → Except Err (ConvertResult Diag)) (fileName : Str) :
    (∀ e, hasSuf ".d.ts".toList fileName = false →
      convertDecorators fileName = Except.error e →
      DecoratorDownlevelCompilerHost.getSourceFile readFile convertDecorators fileName
        = Except.error e) ∧
    (hasSuf ".d.ts".toList fileName = true →
      DecoratorDownlevelCompilerHost.getSourceFile readFile convertDecorators fileName
        = Except.ok (⟨fileName, readFile fileName⟩, [])) := by
  constructor
  · intro e h1 h2
    unfold DecoratorDownlevelCompilerHost.getSourceFile
    rw [h1, h2]
    simp
  · intro h
    unfold DecoratorDownlevelCompilerHost.getSourceFile
    rw [h]
    simp

/-- Witness for C8: a converter that always throws is re-thrown on `a.ts`,
and `b.d.ts` passes through as the original source. -/
theorem C8_witness :
    hasSuf ".d.ts".toList "a.ts".toList = false ∧
    sampleConvertErr "a.ts".toList = Except.error () ∧
    DecoratorDownlevelCompilerHost.getSourceFile sampleRead sampleConvertErr "a.ts".toList
      = Except.error () ∧
    hasSuf ".d.ts".toList "b.d.ts".toList = true ∧
    DecoratorDownlevelCompilerHost.getSourceFile sampleRead sampleConvertErr "b.d.ts".toList
      = Except.ok (⟨"b.d.ts".toList, sampleRead "b.d.ts".toList⟩, []) :=
  ⟨by decide, rfl,
    (C8_theorem sampleRead sampleConvertErr "a.ts".toList).1 () (by decide) rfl,
    by decide,
    (C8_theorem sampleRead sampleConvertErr "b.d.ts".toList).2 (by decide)⟩
